import Mathlib

/-!
Verification of the FPGA register-map accessor in src/game/include/fpga/fpga.c.

The file shallowly embeds the five C functions of fpga.c:

* numbertodigit : the 7-segment encoding table,
* setdigit      : writes the complemented pattern to one of six display registers,
* readkeys      : reads the button bank through KEY_ptr and extracts bits,
* fpgainit      : opens /dev/mem, maps the bridge window, derives register pointers,
* fpgaclose     : unmaps the window and closes the descriptor.

C int arithmetic is modelled on Int in two's complement: bitwise complement is
fun v => -v - 1, a right shift of a (possibly negative) int is the arithmetic
shift, i.e. floor division by a power of two, and masking with 1 is the
nonnegative remainder mod 2.  Memory-mapped register traffic is made explicit:
the button register is a trace of raw 32-bit values indexed by the number of
dereferences performed so far, the display bank is a function from register
index to stored value together with a write counter, and the OS calls made by
fpgainit and fpgaclose are parameters giving each call's outcome, with a counter
of currently open file descriptors to observe descriptor leaks.
-/

/-- C bitwise complement of an int in two's complement arithmetic: ~v = -v - 1. -/
def cNot (v : Int) : Int := -v - 1

/-- C right shift of an int by i bits, as generated for this target: an arithmetic
shift, i.e. floor division by 2^i. -/
def cShr (v : Int) (i : Nat) : Int := Int.fdiv v ((2 : Int) ^ i)

/-- C masking of an int with 1: the low bit in two's complement, i.e. the
nonnegative remainder mod 2. -/
def cAnd1 (v : Int) : Int := v % 2

/-- Translation of numbertodigit: the switch over the int argument, returning the
7-segment pattern for 0..9 and 0 in the default case. -/
def numbertodigit (number : Int) : Int :=
  if number = 0 then 0b0111111
  else if number = 1 then 0b0000110
  else if number = 2 then 0b1011011
  else if number = 3 then 0b1001111
  else if number = 4 then 0b1100110
  else if number = 5 then 0b1101101
  else if number = 6 then 0b1111101
  else if number = 7 then 0b0000111
  else if number = 8 then 0b1111111
  else if number = 9 then 0b1101111
  else 0

/-- State of the six 7-segment display registers HEX0..HEX5 (indexed 0..5), together
with a counter of display-register writes performed, so that the write behaviour of
setdigit is observable. -/
structure DisplayState where
  hexRegs : Fin 6 → Int
  writes : Nat

/-- Translation of setdigit: the switch over hex; each case 0..5 stores the
complemented pattern into the corresponding HEX register (one register write);
the default case returns without writing. -/
def setdigit (s : DisplayState) (number : Int) (hex : Int) : DisplayState :=
  if hex = 0 then ⟨Function.update s.hexRegs 0 (cNot (numbertodigit number)), s.writes + 1⟩
  else if hex = 1 then ⟨Function.update s.hexRegs 1 (cNot (numbertodigit number)), s.writes + 1⟩
  else if hex = 2 then ⟨Function.update s.hexRegs 2 (cNot (numbertodigit number)), s.writes + 1⟩
  else if hex = 3 then ⟨Function.update s.hexRegs 3 (cNot (numbertodigit number)), s.writes + 1⟩
  else if hex = 4 then ⟨Function.update s.hexRegs 4 (cNot (numbertodigit number)), s.writes + 1⟩
  else if hex = 5 then ⟨Function.update s.hexRegs 5 (cNot (numbertodigit number)), s.writes + 1⟩
  else s

/-- The int value obtained by dereferencing a 32-bit register holding raw value r:
two's complement interpretation of the low 32 bits. -/
def int32OfRaw (r : Nat) : Int :=
  if r % 2 ^ 32 < 2 ^ 31 then ((r % 2 ^ 32 : Nat) : Int)
  else ((r % 2 ^ 32 : Nat) : Int) - 2 ^ 32

/-- The value stored by one loop body of readkeys when the dereference of KEY_ptr
returned raw value r and the loop index is i: (~value >> i) & 1 in C int arithmetic. -/
def keyBit (r : Nat) (i : Nat) : Int := cAnd1 (cShr (cNot (int32OfRaw r)) i)

/-- The button register as seen through KEY_ptr: trace k is the raw 32-bit value
returned by the k-th dereference of the register, and reads is the number of
dereferences performed so far. -/
structure RegState where
  trace : Nat → Nat
  reads : Nat

/-- The loop of readkeys with n iterations remaining and current loop index i: each
iteration dereferences KEY_ptr once and stores the extracted bit at index i of the
array. -/
def readkeysGo (s : RegState) (arr : List Int) (i : Nat) : Nat → List Int × RegState
  | 0 => (arr, s)
  | n + 1 =>
    readkeysGo ⟨s.trace, s.reads + 1⟩ (arr.set i (keyBit (s.trace s.reads) i)) (i + 1) n

/-- Translation of readkeys: for i in [0, size) store ((~ *KEY_ptr) >> i) & 1 into
pressed_keys[i], the register being dereferenced inside the loop body.  Returns the
final array contents and the final register-trace state. -/
def readkeys (s : RegState) (pressed_keys : List Int) (size : Nat) :
    List Int × RegState :=
  readkeysGo s pressed_keys 0 size

/-- The array loop of the read-once variant of readkeys: v is the single raw value
read, and for each remaining index the corresponding bit of the inverted v is
stored.  Used only to state the spec-side version for the refinement claim. -/
def onceGo (v : Nat) (arr : List Int) (i : Nat) : Nat → List Int
  | 0 => arr
  | n + 1 => onceGo v (arr.set i (keyBit v i)) (i + 1) n

/-- The version of readkeys described by the specification sentence for claim C1,
stated from the words of the spec: the register is dereferenced exactly once, and
then for each index i in [0, size) bit i of the inverted value is stored. -/
def readButtonsOnce (s : RegState) (pressed_keys : List Int) (size : Nat) :
    List Int × RegState :=
  (onceGo (s.trace s.reads) pressed_keys 0 size, ⟨s.trace, s.reads + 1⟩)

/-- Modelled from the spec: the byte offsets KEY_BASE and HEX0_BASE..HEX5_BASE are
defined in the header fpga.h, which is not among the sources; the spec fixes only
that each register pointer is the mapping base plus a fixed byte offset, so the
offsets are abstract parameters of the model. -/
structure RegOffsets where
  KEY_BASE : Nat
  HEX0_BASE : Nat
  HEX1_BASE : Nat
  HEX2_BASE : Nat
  HEX3_BASE : Nat
  HEX4_BASE : Nat
  HEX5_BASE : Nat

/-- The fpga_map_arm_t structure: the file descriptor, the mapping base returned by
mmap (none models MAP_FAILED), and the seven register pointers as byte addresses
(none models a pointer field that was never assigned a real address). -/
structure FpgaMapArm where
  fd : Int
  mapped_ptr : Option Nat
  KEY_ptr : Option Nat
  HEX0_ptr : Option Nat
  HEX1_ptr : Option Nat
  HEX2_ptr : Option Nat
  HEX3_ptr : Option Nat
  HEX4_ptr : Option Nat
  HEX5_ptr : Option Nat

/-- Outcome of the OS calls made by one run of fpgainit: openRes is some fd when
open("/dev/mem", O_RDWR | O_SYNC) succeeds with descriptor fd, and none when it
returns -1; mmapRes is some base when mmap succeeds with base address base, and
none when it returns MAP_FAILED. -/
structure OsEnv where
  openRes : Option Nat
  mmapRes : Option Nat

/-- The SUCCESS return code: the doc comments of fpga.c fix it as 0. -/
def SUCCESS : Int := 0

/-- The ERROR return code: the doc comments of fpga.c fix the error return as -1. -/
def ERROR : Int := -1

/-- Translation of fpgainit: stores the result of open in the fd field, returning -1
if it failed; then mmaps the bridge window, and on MAP_FAILED closes the descriptor
and returns ERROR; on success derives the seven register pointers from the base.
openCnt counts the file descriptors currently open (open adds one, close removes
one), so that descriptor leaks are observable.  Returns the status code, the updated
structure and the updated descriptor count. -/
def fpgainit (off : RegOffsets) (env : OsEnv) (m : FpgaMapArm) (openCnt : Int) :
    Int × FpgaMapArm × Int :=
  match env.openRes with
  | none => (-1, { m with fd := -1 }, openCnt)
  | some fd =>
    match env.mmapRes with
    | none => (ERROR, { m with fd := (fd : Int), mapped_ptr := none }, openCnt + 1 - 1)
    | some base =>
      (SUCCESS,
        { fd := (fd : Int)
          mapped_ptr := some base
          KEY_ptr := some (base + off.KEY_BASE)
          HEX0_ptr := some (base + off.HEX0_BASE)
          HEX1_ptr := some (base + off.HEX1_BASE)
          HEX2_ptr := some (base + off.HEX2_BASE)
          HEX3_ptr := some (base + off.HEX3_BASE)
          HEX4_ptr := some (base + off.HEX4_BASE)
          HEX5_ptr := some (base + off.HEX5_BASE) },
        openCnt + 1)

/-- Translation of fpgaclose: munmapOk tells whether munmap(mapped_ptr,
LW_BRIDGE_SPAN) returned 0.  On unmap failure it returns ERROR with the structure
and the open-descriptor count untouched; on unmap success it closes the descriptor
and resets the field to -1 only when fd is at least 0, and returns SUCCESS. -/
def fpgaclose (munmapOk : Bool) (m : FpgaMapArm) (openCnt : Int) :
    Int × FpgaMapArm × Int :=
  if munmapOk then
    if m.fd ≥ 0 then (SUCCESS, { m with fd := -1 }, openCnt - 1)
    else (SUCCESS, m, openCnt)
  else (ERROR, m, openCnt)

/-! ### Helper lemmas about the readkeys loop -/

theorem readkeysGo_snd (s : RegState) (arr : List Int) (i n : Nat) :
    (readkeysGo s arr i n).2 = ⟨s.trace, s.reads + n⟩ := by
  induction n generalizing s arr i with
  | zero => rfl
  | succ n ih =>
    rw [readkeysGo, ih]
    show (⟨s.trace, s.reads + 1 + n⟩ : RegState) = ⟨s.trace, s.reads + (n + 1)⟩
    congr 1
    omega

theorem readkeysGo_length (s : RegState) (arr : List Int) (i n : Nat) :
    ((readkeysGo s arr i n).1).length = arr.length := by
  induction n generalizing s arr i with
  | zero => rfl
  | succ n ih => rw [readkeysGo, ih, List.length_set]

theorem readkeysGo_getElem (s : RegState) (arr : List Int) (i n k : Nat) :
    ((readkeysGo s arr i n).1)[k]? =
      if i ≤ k ∧ k < i + n ∧ k < arr.length
      then some (keyBit (s.trace (s.reads + (k - i))) k)
      else arr[k]? := by
  induction n generalizing s arr i with
  | zero =>
    rw [readkeysGo, if_neg (by omega)]
  | succ n ih =>
    rw [readkeysGo, ih, List.getElem?_set, List.length_set]
    by_cases hik : i = k
    · subst hik
      rw [if_neg (by omega), if_pos rfl]
      by_cases hlen : i < arr.length
      · rw [if_pos hlen, if_pos ⟨Nat.le_refl i, by omega, hlen⟩, Nat.sub_self,
          Nat.add_zero]
      · rw [if_neg hlen, if_neg (by omega), List.getElem?_eq_none (by omega)]
    · by_cases hc : i + 1 ≤ k ∧ k < i + 1 + n ∧ k < arr.length
      · rw [if_pos hc, if_pos (show i ≤ k ∧ k < i + (n + 1) ∧ k < arr.length by omega)]
        have he : s.reads + 1 + (k - (i + 1)) = s.reads + (k - i) := by omega
        rw [he]
      · rw [if_neg hc, if_neg hik, if_neg (by omega)]

theorem setdigit_at_fin (s : DisplayState) (v : Int) (p : Fin 6) :
    setdigit s v ((p : Nat) : Int) =
      ⟨Function.update s.hexRegs p (cNot (numbertodigit v)), s.writes + 1⟩ :=
  match p with
  | ⟨0, _⟩ => rfl
  | ⟨1, _⟩ => rfl
  | ⟨2, _⟩ => rfl
  | ⟨3, _⟩ => rfl
  | ⟨4, _⟩ => rfl
  | ⟨5, _⟩ => rfl
  | ⟨n + 6, h⟩ => absurd h (by omega)

theorem onceGo_eq_readkeysGo (v : Nat) (arr : List Int) (i n c : Nat) :
    onceGo v arr i n = (readkeysGo ⟨fun _ => v, c⟩ arr i n).1 := by
  induction n generalizing arr i c with
  | zero => rfl
  | succ n ih =>
    rw [onceGo, readkeysGo]
    exact ih (arr.set i (keyBit v i)) (i + 1) (c + 1)

/-! ### The bit extracted by one loop body of readkeys -/

theorem cast_two_pow (i : Nat) : (2 : Int) ^ i = ((2 ^ i : Nat) : Int) := by
  rw [Nat.cast_pow, Nat.cast_ofNat]

theorem fdiv_negSucc_pos (m d : Nat) (hd : 0 < d) :
    Int.fdiv (Int.negSucc m) ((d : Nat) : Int) = Int.negSucc (m / d) := by
  obtain ⟨k, rfl⟩ := Nat.exists_eq_add_of_lt hd
  rfl

theorem emod_negSucc_two (q : Nat) :
    Int.negSucc q % 2 = if q % 2 = 1 then 0 else 1 := by
  have e : Int.negSucc q % 2 = Int.subNatNat 2 (q % 2 + 1) := rfl
  rcases Nat.mod_two_eq_zero_or_one q with h | h <;> rw [e, h] <;> rfl

theorem negBit (a i : Nat) :
    cAnd1 (cShr (-(a : Int) - 1) i) = 1 - ((a / 2 ^ i % 2 : Nat) : Int) := by
  have h1 : -(a : Int) - 1 = Int.negSucc a := by rw [Int.negSucc_eq]; omega
  rw [cAnd1, cShr, h1, cast_two_pow,
    fdiv_negSucc_pos a (2 ^ i) (Nat.two_pow_pos i), emod_negSucc_two]
  rcases Nat.mod_two_eq_zero_or_one (a / 2 ^ i) with h | h <;> rw [h] <;> rfl

theorem posBit (a i : Nat) :
    cAnd1 (cShr ((a : Nat) : Int) i) = ((a / 2 ^ i % 2 : Nat) : Int) := by
  have e1 : ((a : Nat) : Int) / ((2 ^ i : Nat) : Int) = ((a / 2 ^ i : Nat) : Int) :=
    (Int.natCast_div a (2 ^ i)).symm
  have e2 : ((a / 2 ^ i : Nat) : Int) % 2 = ((a / 2 ^ i % 2 : Nat) : Int) := rfl
  rw [cAnd1, cShr, cast_two_pow, Int.fdiv_eq_ediv _ (Int.natCast_nonneg _), e1, e2]

theorem keyBit_eq_testBit (r i : Nat) (hr : r < 2 ^ 32) (hi : i < 32) :
    keyBit r i = if r.testBit i then 0 else 1 := by
  rw [Nat.testBit_to_div_mod]
  by_cases hcase : r < 2 ^ 31
  · rw [keyBit, cNot, int32OfRaw, Nat.mod_eq_of_lt hr, if_pos hcase, negBit]
    rcases Nat.mod_two_eq_zero_or_one (r / 2 ^ i) with h | h <;> rw [h] <;> rfl
  · rw [keyBit, cNot, int32OfRaw, Nat.mod_eq_of_lt hr, if_neg hcase,
      show -((r : Int) - 2 ^ 32) - 1 = ((2 ^ 32 - (r + 1) : Nat) : Int) from by omega,
      posBit]
    have h4 := Nat.testBit_two_pow_sub_succ hr i
    rw [Nat.testBit_to_div_mod, decide_eq_true (show i < 32 by omega),
      Bool.true_and] at h4
    rcases Nat.mod_two_eq_zero_or_one ((2 ^ 32 - (r + 1)) / 2 ^ i) with h | h <;>
      rw [h] at h4 ⊢
    · have hbit : r.testBit i = true := by
        cases hb : r.testBit i
        · rw [hb] at h4; simp at h4
        · rfl
      rw [Nat.testBit_to_div_mod] at hbit
      rw [hbit]
      rfl
    · have hbit : r.testBit i = false := by
        cases hb : r.testBit i
        · rfl
        · rw [hb] at h4; simp at h4
      rw [Nat.testBit_to_div_mod] at hbit
      rw [hbit]
      rfl

/-! ### Claims about numbertodigit and setdigit -/

/-- C2: for every v in [0, 9] numbertodigit returns the standard 7-segment pattern
(the ten table equalities below, in particular 0 to 0b0111111 and 8 to 0b1111111),
and for every v outside [0, 9], including negative v, it returns 0. -/
theorem C2_numbertodigit_table :
    (numbertodigit 0 = 0b0111111 ∧ numbertodigit 1 = 0b0000110 ∧
     numbertodigit 2 = 0b1011011 ∧ numbertodigit 3 = 0b1001111 ∧
     numbertodigit 4 = 0b1100110 ∧ numbertodigit 5 = 0b1101101 ∧
     numbertodigit 6 = 0b1111101 ∧ numbertodigit 7 = 0b0000111 ∧
     numbertodigit 8 = 0b1111111 ∧ numbertodigit 9 = 0b1101111) ∧
    ∀ v : Int, (v < 0 ∨ 9 < v) → numbertodigit v = 0 := by
  refine ⟨by decide, fun v hv => ?_⟩
  obtain ⟨h0, h1, h2, h3, h4, h5, h6, h7, h8, h9⟩ :
      v ≠ 0 ∧ v ≠ 1 ∧ v ≠ 2 ∧ v ≠ 3 ∧ v ≠ 4 ∧ v ≠ 5 ∧ v ≠ 6 ∧ v ≠ 7 ∧ v ≠ 8 ∧
        v ≠ 9 := by omega
  rw [numbertodigit, if_neg h0, if_neg h1, if_neg h2, if_neg h3, if_neg h4,
    if_neg h5, if_neg h6, if_neg h7, if_neg h8, if_neg h9]

/-- Witness for C2: the out-of-range clause evaluated at v = -3 and at v = 10. -/
theorem C2_numbertodigit_table_witness :
    numbertodigit (-3) = 0 ∧ numbertodigit 10 = 0 :=
  ⟨C2_numbertodigit_table.2 (-3) (Or.inl (by decide)),
   C2_numbertodigit_table.2 10 (Or.inr (by decide))⟩

/-- C9: applying the bitwise complement twice to the pattern returned by
numbertodigit reproduces the pattern: complement is self-inverse on the encoding. -/
theorem C9_numbertodigit_complement_involution (v : Int) :
    cNot (cNot (numbertodigit v)) = numbertodigit v := by
  unfold cNot
  ring

/-- C3: for every value v and every position p in [0, 5], setdigit stores exactly
the bitwise complement of the encoded pattern into display register p, increments
the register-write counter by exactly one, and leaves the other five display
registers unchanged. -/
theorem C3_setdigit_valid (s : DisplayState) (v : Int) (p : Fin 6) :
    (setdigit s v ((p : Nat) : Int)).hexRegs p = cNot (numbertodigit v) ∧
    (setdigit s v ((p : Nat) : Int)).writes = s.writes + 1 ∧
    ∀ q : Fin 6, q ≠ p → (setdigit s v ((p : Nat) : Int)).hexRegs q = s.hexRegs q := by
  rw [setdigit_at_fin]
  exact ⟨Function.update_same p (cNot (numbertodigit v)) s.hexRegs, rfl,
    fun q hq => Function.update_noteq hq (cNot (numbertodigit v)) s.hexRegs⟩

/-- C4: for every value v and every position outside [0, 5], setdigit is a no-op:
the state (all six display registers and the write counter) is returned unchanged,
and no error is signalled (the function has no error channel at all). -/
theorem C4_setdigit_invalid (s : DisplayState) (v : Int) (hex : Int)
    (h : hex < 0 ∨ 5 < hex) : setdigit s v hex = s := by
  obtain ⟨h0, h1, h2, h3, h4, h5⟩ :
      hex ≠ 0 ∧ hex ≠ 1 ∧ hex ≠ 2 ∧ hex ≠ 3 ∧ hex ≠ 4 ∧ hex ≠ 5 := by omega
  rw [setdigit, if_neg h0, if_neg h1, if_neg h2, if_neg h3, if_neg h4, if_neg h5]

/-- Witness for C4: position 6 with an arbitrary concrete display state. -/
theorem C4_setdigit_invalid_witness :
    setdigit ⟨fun _ => 7, 0⟩ 3 6 = ⟨fun _ => 7, 0⟩ :=
  C4_setdigit_invalid ⟨fun _ => 7, 0⟩ 3 6 (Or.inr (by decide))

/-! ### Claims about fpgainit and fpgaclose -/

/-- C6: fpgainit returns a negative code exactly when open fails or mmap fails;
when open fails the fd field of the handle is left at the invalid value -1 and no
descriptor has been opened; when mmap fails the descriptor opened just before is
closed again before returning, so on every error path the number of open
descriptors is unchanged: no descriptor is leaked. -/
theorem C6_fpgainit_errors (off : RegOffsets) (env : OsEnv) (m : FpgaMapArm)
    (openCnt : Int) :
    ((fpgainit off env m openCnt).1 < 0 ↔
      (env.openRes = none ∨ env.mmapRes = none)) ∧
    (env.openRes = none →
      (fpgainit off env m openCnt).2.1.fd = -1 ∧
      (fpgainit off env m openCnt).2.2 = openCnt) ∧
    (env.openRes ≠ none → env.mmapRes = none →
      (fpgainit off env m openCnt).2.2 = openCnt) := by
  obtain ⟨openRes, mmapRes⟩ := env
  cases openRes <;> cases mmapRes <;>
    simp [fpgainit, SUCCESS, ERROR]

/-- Witness for C6: the open-failure path with descriptor count 5, and the
mmap-failure path after open returned descriptor 3 with descriptor count 5. -/
theorem C6_fpgainit_errors_witness :
    (fpgainit ⟨0, 0, 0, 0, 0, 0, 0⟩ ⟨none, some 4096⟩
      ⟨0, none, none, none, none, none, none, none, none⟩ 5).2.1.fd = -1 ∧
    (fpgainit ⟨0, 0, 0, 0, 0, 0, 0⟩ ⟨some 3, none⟩
      ⟨0, none, none, none, none, none, none, none, none⟩ 5).2.2 = 5 :=
  ⟨((C6_fpgainit_errors ⟨0, 0, 0, 0, 0, 0, 0⟩ ⟨none, some 4096⟩
      ⟨0, none, none, none, none, none, none, none, none⟩ 5).2.1 rfl).1,
    (C6_fpgainit_errors ⟨0, 0, 0, 0, 0, 0, 0⟩ ⟨some 3, none⟩
      ⟨0, none, none, none, none, none, none, none, none⟩ 5).2.2 (by decide) rfl⟩

/-- C7: when munmap fails, fpgaclose returns ERROR with the whole structure (in
particular the fd field) and the open-descriptor count untouched, so the
descriptor stays open; when munmap succeeds, the descriptor is closed and the
field reset to -1 exactly when the field was valid (at least 0), while an invalid
field (such as -1 after a failed init) is left alone and nothing is closed. -/
theorem C7_fpgaclose (m : FpgaMapArm) (openCnt : Int) :
    fpgaclose false m openCnt = (ERROR, m, openCnt) ∧
    (0 ≤ m.fd →
      fpgaclose true m openCnt = (SUCCESS, { m with fd := -1 }, openCnt - 1)) ∧
    (m.fd < 0 → fpgaclose true m openCnt = (SUCCESS, m, openCnt)) := by
  refine ⟨rfl, fun h => ?_, fun h => ?_⟩
  · unfold fpgaclose
    rw [if_pos rfl, if_pos h]
  · unfold fpgaclose
    rw [if_pos rfl, if_neg (by omega)]

/-- Witness for C7: the unmap-success paths at a concrete handle with fd = 4 and at
one with fd = -1. -/
theorem C7_fpgaclose_witness :
    fpgaclose true ⟨4, some 100, none, none, none, none, none, none, none⟩ 9 =
      (SUCCESS, ⟨-1, some 100, none, none, none, none, none, none, none⟩, 8) ∧
    fpgaclose true ⟨-1, some 100, none, none, none, none, none, none, none⟩ 9 =
      (SUCCESS, ⟨-1, some 100, none, none, none, none, none, none, none⟩, 9) :=
  ⟨(C7_fpgaclose ⟨4, some 100, none, none, none, none, none, none, none⟩ 9).2.1
      (by decide),
    (C7_fpgaclose ⟨-1, some 100, none, none, none, none, none, none, none⟩ 9).2.2
      (by decide)⟩

/-- C8: on every successful return of fpgainit the handle is fully populated: the
return code is SUCCESS, the fd field holds the (nonnegative, hence valid)
descriptor, the mapping base is the address returned by mmap, and each of the
seven register pointers equals the mapping base plus its fixed byte offset. -/
theorem C8_fpgainit_success (off : RegOffsets) (env : OsEnv) (m : FpgaMapArm)
    (openCnt : Int) (fd base : Nat) (hopen : env.openRes = some fd)
    (hmmap : env.mmapRes = some base) :
    (fpgainit off env m openCnt).1 = SUCCESS ∧
    (fpgainit off env m openCnt).2.1.fd = (fd : Int) ∧
    0 ≤ (fpgainit off env m openCnt).2.1.fd ∧
    (fpgainit off env m openCnt).2.1.mapped_ptr = some base ∧
    (fpgainit off env m openCnt).2.1.KEY_ptr = some (base + off.KEY_BASE) ∧
    (fpgainit off env m openCnt).2.1.HEX0_ptr = some (base + off.HEX0_BASE) ∧
    (fpgainit off env m openCnt).2.1.HEX1_ptr = some (base + off.HEX1_BASE) ∧
    (fpgainit off env m openCnt).2.1.HEX2_ptr = some (base + off.HEX2_BASE) ∧
    (fpgainit off env m openCnt).2.1.HEX3_ptr = some (base + off.HEX3_BASE) ∧
    (fpgainit off env m openCnt).2.1.HEX4_ptr = some (base + off.HEX4_BASE) ∧
    (fpgainit off env m openCnt).2.1.HEX5_ptr = some (base + off.HEX5_BASE) := by
  obtain ⟨openRes, mmapRes⟩ := env
  cases hopen
  cases hmmap
  and_intros <;> first | rfl | exact Int.natCast_nonneg fd

/-- Witness for C8: a successful init with descriptor 3, base address 4096 and
concrete offsets 0, 16, 32, 48, 64, 80, 96. -/
theorem C8_fpgainit_success_witness :
    (fpgainit ⟨0, 16, 32, 48, 64, 80, 96⟩ ⟨some 3, some 4096⟩
      ⟨-1, none, none, none, none, none, none, none, none⟩ 0).1 = SUCCESS ∧
    (fpgainit ⟨0, 16, 32, 48, 64, 80, 96⟩ ⟨some 3, some 4096⟩
      ⟨-1, none, none, none, none, none, none, none, none⟩ 0).2.1.KEY_ptr =
      some (4096 + 0) :=
  ⟨(C8_fpgainit_success ⟨0, 16, 32, 48, 64, 80, 96⟩ ⟨some 3, some 4096⟩
      ⟨-1, none, none, none, none, none, none, none, none⟩ 0 3 4096 rfl rfl).1,
    (C8_fpgainit_success ⟨0, 16, 32, 48, 64, 80, 96⟩ ⟨some 3, some 4096⟩
      ⟨-1, none, none, none, none, none, none, none, none⟩ 0 3 4096 rfl rfl).2.2.2.2.1⟩

/-! ### Claims about readkeys -/

/-- C5: with the button register holding raw value r, constant over the call,
readkeys stores at each output index i in [0, n) bit i of the bitwise inversion of
r, i.e. 1 when bit i of r is clear and 0 when it is set (for i below the 32-bit
register width, beyond which the C shift is undefined); in particular with raw
value 0xFE and size 4 the output array is [1, 0, 0, 0]. -/
theorem C5_readkeys_inverted_bits (r n i c : Nat) (arr : List Int)
    (hr : r < 2 ^ 32) (hin : i < n) (hia : i < arr.length) (hw : i < 32) :
    ((readkeys ⟨fun _ => r, c⟩ arr n).1)[i]? =
      some (if r.testBit i then 0 else 1) ∧
    (readkeys ⟨fun _ => 0xFE, 0⟩ [9, 9, 9, 9] 4).1 = [1, 0, 0, 0] := by
  constructor
  · rw [readkeys, readkeysGo_getElem, if_pos ⟨Nat.zero_le i, by omega, hia⟩]
    show some (keyBit r i) = some (if r.testBit i then 0 else 1)
    rw [keyBit_eq_testBit r i hr hw]
  · decide

/-- Witness for C5: raw value 0xFE, size 4, index 0, expected entry 1. -/
theorem C5_readkeys_inverted_bits_witness :
    ((readkeys ⟨fun _ => 0xFE, 0⟩ [9, 9, 9, 9] 4).1)[0]? =
      some (if Nat.testBit 0xFE 0 then 0 else 1) :=
  (C5_readkeys_inverted_bits 0xFE 4 0 0 [9, 9, 9, 9] (by norm_num) (by omega)
    (by simp) (by omega)).1

/-- C10: every entry stored by readkeys is 0 or 1 (the stored value is masked down
to a single bit), for every register trace and every size; and with size 0 the
output array is returned entirely unmodified. -/
theorem C10_readkeys_zero_or_one (s : RegState) (arr : List Int) (n i : Nat)
    (hin : i < n) (hia : i < arr.length) :
    (((readkeys s arr n).1)[i]? = some 0 ∨ ((readkeys s arr n).1)[i]? = some 1) ∧
    (readkeys s arr 0).1 = arr := by
  constructor
  · rw [readkeys, readkeysGo_getElem, if_pos ⟨Nat.zero_le i, by omega, hia⟩]
    have h : keyBit (s.trace (s.reads + (i - 0))) i = 0 ∨
        keyBit (s.trace (s.reads + (i - 0))) i = 1 := by
      rw [keyBit, cAnd1]
      omega
    rcases h with h | h
    · exact Or.inl (congrArg some h)
    · exact Or.inr (congrArg some h)
  · rfl

/-- Witness for C10: constant raw value 5, array [3, 3], size 2, index 1. -/
theorem C10_readkeys_zero_or_one_witness :
    (((readkeys ⟨fun _ => 5, 0⟩ [3, 3] 2).1)[1]? = some 0 ∨
      ((readkeys ⟨fun _ => 5, 0⟩ [3, 3] 2).1)[1]? = some 1) ∧
    (readkeys ⟨fun _ => 5, 0⟩ [3, 3] 0).1 = [3, 3] :=
  ⟨(C10_readkeys_zero_or_one ⟨fun _ => 5, 0⟩ [3, 3] 2 1 (by decide) (by decide)).1,
   (C10_readkeys_zero_or_one ⟨fun _ => 5, 0⟩ [3, 3] 2 1 (by decide) (by decide)).2⟩

/-- C1 as stated is false on the code: readkeys dereferences the button register
inside the loop body, once per iteration, not once per call.  With a register
trace whose value changes between the two reads of a size-2 call, the call
performs 2 reads rather than 1, and its output array [1, 0] differs from the
array [1, 1] produced by the read-once version, so the two functions are not
observationally equivalent. -/
theorem C1_counterexample :
    (readkeys ⟨fun k => if k = 0 then 0 else 2, 0⟩ [5, 5] 2).2.reads = 2 ∧
    (readButtonsOnce ⟨fun k => if k = 0 then 0 else 2, 0⟩ [5, 5] 2).2.reads = 1 ∧
    (readkeys ⟨fun k => if k = 0 then 0 else 2, 0⟩ [5, 5] 2).1 = [1, 0] ∧
    (readButtonsOnce ⟨fun k => if k = 0 then 0 else 2, 0⟩ [5, 5] 2).1 = [1, 1] ∧
    (readkeys ⟨fun k => if k = 0 then 0 else 2, 0⟩ [5, 5] 2).1 ≠
      (readButtonsOnce ⟨fun k => if k = 0 then 0 else 2, 0⟩ [5, 5] 2).1 :=
  ⟨rfl, rfl, by decide, by decide, by decide⟩

/-- C1 amended: readkeys performs one physical register read per loop iteration,
so a call of the given size performs exactly size reads rather than one; it is
observationally equivalent to the version that reads the register once and then
extracts bit i of the inverted value for each index i whenever the register value
is constant over the call (the reads themselves excepted). -/
theorem C1_readkeys_reads_per_iteration (s : RegState) (arr : List Int)
    (size : Nat) :
    (readkeys s arr size).2.reads = s.reads + size ∧
    ((∀ k, s.trace k = s.trace 0) →
      (readkeys s arr size).1 = (readButtonsOnce s arr size).1) := by
  constructor
  · rw [readkeys, readkeysGo_snd]
  · intro h
    obtain ⟨t, c⟩ := s
    have ht : t = fun _ => t 0 := funext h
    show (readkeysGo ⟨t, c⟩ arr 0 size).1 = onceGo (t c) arr 0 size
    rw [onceGo_eq_readkeysGo (t c) arr 0 size c, show t c = t 0 from h c]
    conv_lhs => rw [ht]

/-- Witness for C1: a constant register trace with value 3, array [7, 7], size 2. -/
theorem C1_readkeys_reads_per_iteration_witness :
    (readkeys ⟨fun _ => 3, 0⟩ [7, 7] 2).2.reads = 0 + 2 ∧
    (readkeys ⟨fun _ => 3, 0⟩ [7, 7] 2).1 =
      (readButtonsOnce ⟨fun _ => 3, 0⟩ [7, 7] 2).1 :=
  ⟨(C1_readkeys_reads_per_iteration ⟨fun _ => 3, 0⟩ [7, 7] 2).1,
   (C1_readkeys_reads_per_iteration ⟨fun _ => 3, 0⟩ [7, 7] 2).2 (fun _ => rfl)⟩
